import Mathlib

/-!
Conversation / file-ingestion orchestrator of `src/pages/Chatbot.jsx`

A shallow embedding of the `Chatbot` component's state and of its handlers
`extractTextFromImage`, `extractTextFromPDF`, `handleFileChange`, `handleSend`
and `handleClearFile`.

Modelling conventions

* The seven `useState` cells are the fields of `State`; a handler is a function
  from the state it closes over to the state after it has settled, paired with
  the list of external calls it made, in order (`Event`).
* A JavaScript string is a `String`; `undefined` / `null` is `none`.
* An awaited promise is its outcome, `Except Thrown α`: `.ok v` when it resolves
  with `v`, `.error e` when it rejects (the `await` then throws `e`).
* The external collaborators (completion API, pdf.js, tesseract.js,
  `URL.createObjectURL`) are the fields of `Env`; every theorem quantifies over
  all of them.
-/

namespace Chatbot

/-! ## JavaScript string helpers -/

/-- The value carried by a rejected promise or a `throw`. -/
abbrev Thrown := String

/-- Truthiness of a JavaScript string: every string but the empty one. -/
def truthy (s : String) : Bool := decide (s ≠ "")

/-- Code points removed by `String.prototype.trim` (ECMAScript WhiteSpace and
LineTerminator). -/
def isTrimChar (c : Char) : Bool :=
  decide (c.toNat ∈ [0x09, 0x0A, 0x0B, 0x0C, 0x0D, 0x20, 0xA0, 0x1680,
    0x2000, 0x2001, 0x2002, 0x2003, 0x2004, 0x2005, 0x2006, 0x2007, 0x2008,
    0x2009, 0x200A, 0x2028, 0x2029, 0x202F, 0x205F, 0x3000, 0xFEFF])

/-- The method `String.prototype.trim`: strip leading and trailing white space. -/
def trim (s : String) : String :=
  String.mk (((s.data.dropWhile isTrimChar).reverse.dropWhile isTrimChar).reverse)

/-- The method `Array.prototype.join` on an array of strings. -/
def join (sep : String) : List String → String
  | [] => ""
  | [x] => x
  | x :: y :: rest => x ++ sep ++ join sep (y :: rest)

/-- The method `String.prototype.startsWith`. -/
def startsWith (s p : String) : Bool := p.data.isPrefixOf s.data

/-! ## Data model -/

/-- A browser `File` picked in the upload control. -/
structure FileObj where
  name : String
  type : String
  bytes : List Nat
deriving DecidableEq, Repr

/-- An entry of the `messages` array. -/
structure Message where
  role : String
  content : Option String
  file : Option String
  fileName : Option String
deriving DecidableEq, Repr

/-- The object stored by `setFilePreview`. -/
structure FilePreview where
  type : String
  content : String
  extractedText : String
  name : String
deriving DecidableEq, Repr

/-- The `useState` cells of the component. -/
structure State where
  messages : List Message
  input : String
  file : Option FileObj
  filePreview : Option FilePreview
  isLoading : Bool
  isProcessingFile : Bool
  error : Option String
deriving DecidableEq, Repr

/-- The initial values passed to `useState`. -/
def State.init : State :=
  { messages := [], input := "", file := none, filePreview := none,
    isLoading := false, isProcessingFile := false, error := none }

/-- One element of the `messages` array sent to the completion API. -/
structure PayloadEntry where
  role : String
  content : String
deriving DecidableEq, Repr

/-- The argument of `groq.chat.completions.create`. -/
structure Request where
  messages : List PayloadEntry
  model : String
deriving DecidableEq, Repr

/-- The `message` object of a choice. -/
structure ChoiceMessage where
  content : Option String
deriving DecidableEq, Repr

/-- One element of `response.choices`. -/
structure Choice where
  message : Option ChoiceMessage
deriving DecidableEq, Repr

/-- The resolved value of `groq.chat.completions.create`; `choices` is `none`
for a malformed response that has no such array. -/
structure Response where
  choices : Option (List Choice)
deriving DecidableEq, Repr

/-- An element of `textContent.items`. -/
structure TextItem where
  str : String
deriving DecidableEq, Repr

/-- The document proxy returned by pdf.js: `getPage i` stands for
`(await (await pdf.getPage(i)).getTextContent()).items`. -/
structure PdfDoc where
  numPages : Nat
  getPage : Nat → Except Thrown (List TextItem)

/-- The external collaborators. -/
structure Env where
  /-- The call `groq.chat.completions.create`. -/
  create : Request → Except Thrown Response
  /-- The calls `pdfFile.arrayBuffer()` and `pdfjsLib.getDocument(...).promise`. -/
  getDocument : FileObj → Except Thrown PdfDoc
  /-- The call `createWorker()`. -/
  createWorker : Except Thrown Unit
  /-- The call `worker.loadLanguage`. -/
  loadLanguage : String → Except Thrown Unit
  /-- The call `worker.initialize`. -/
  initWorker : String → Except Thrown Unit
  /-- The call `worker.recognize`, projected to `data.text`. -/
  recognize : FileObj → Except Thrown String
  /-- The call `worker.terminate`. -/
  terminate : Except Thrown Unit
  /-- The call `URL.createObjectURL`. -/
  createObjectURL : FileObj → String

/-- External calls and console output, in the order they happen. -/
inductive Event where
  | completionCreate (req : Request)
  | pdfExtraction (f : FileObj)
  | imageExtraction (f : FileObj)
  | consoleError (label : String)
deriving DecidableEq, Repr

/-! ## Text extraction -/

/-- The function `extractTextFromImage`: the body runs inside `try`, and
`worker.terminate()` runs in `finally`, so a throw of `terminate` replaces the
outcome of the body. -/
def extractTextFromImage (env : Env) (imageFile : FileObj) : Except Thrown String :=
  match env.createWorker with
  | .error e => .error e
  | .ok _ =>
    let body : Except Thrown String :=
      match env.loadLanguage "eng" with
      | .error e => .error e
      | .ok _ =>
        match env.initWorker "eng" with
        | .error e => .error e
        | .ok _ => env.recognize imageFile
    match env.terminate with
    | .error e => .error e
    | .ok _ => body

/-- The `for (let i = ...; i <= pdf.numPages; i++)` loop of `extractTextFromPDF`.
The first argument counts the iterations still allowed; started at
`pdf.numPages` with `i = 1` it is never exhausted before the loop test fails. -/
def pdfLoop (pdf : PdfDoc) : Nat → Nat → String → Except Thrown String
  | 0, _, extractedText => .ok extractedText
  | fuel + 1, i, extractedText =>
    if i ≤ pdf.numPages then
      match pdf.getPage i with
      | .error e => .error e
      | .ok items =>
        pdfLoop pdf fuel (i + 1) (extractedText ++ join " " (items.map (fun item => item.str)))
    else .ok extractedText

/-- The function `extractTextFromPDF`. -/
def extractTextFromPDF (env : Env) (pdfFile : FileObj) : Except Thrown String :=
  match env.getDocument pdfFile with
  | .error e => .error e
  | .ok pdf => pdfLoop pdf pdf.numPages 1 ""

/-! ## File ingestion -/

/-- The tail of the `try` block of `handleFileChange` (`setFile`,
`setFilePreview`) followed by `finally`. -/
def stageFile (env : Env) (selectedFile : FileObj) (extractedText : String) (s : State) : State :=
  { s with
    file := some selectedFile
    filePreview := some
      { type := selectedFile.type
        content := env.createObjectURL selectedFile
        extractedText := extractedText
        name := selectedFile.name }
    isProcessingFile := false }

/-- The `catch` block of `handleFileChange` followed by `finally`. -/
def failIngestion (s : State) : State :=
  { s with error := some "Error processing file. Please try again.", isProcessingFile := false }

/-- The handler `handleFileChange`; the argument is `e.target.files[0]`. -/
def handleFileChange (env : Env) (selectedFile : Option FileObj) (s : State) :
    State × List Event :=
  match selectedFile with
  | none => (s, [])
  | some f =>
    let s1 : State := { s with error := none, isProcessingFile := true }
    if f.type = "application/pdf" then
      match extractTextFromPDF env f with
      | .ok extractedText => (stageFile env f extractedText s1, [.pdfExtraction f])
      | .error _ => (failIngestion s1, [.pdfExtraction f, .consoleError "File processing error:"])
    else if startsWith f.type "image/" then
      match extractTextFromImage env f with
      | .ok extractedText => (stageFile env f extractedText s1, [.imageExtraction f])
      | .error _ => (failIngestion s1, [.imageExtraction f, .consoleError "File processing error:"])
    else
      ({ s1 with error := some "Unsupported file type", isProcessingFile := false }, [])

/-- The handler `handleClearFile`. -/
def handleClearFile (s : State) : State :=
  { s with file := none, filePreview := none, error := none }

/-! ## Message dispatch -/

/-- The expression `filePreview?.extractedText`. -/
def stagedText (filePreview : Option FilePreview) : Option String :=
  filePreview.map (fun p => p.extractedText)

/-- Truthiness of an optional string (`undefined` is falsy). -/
def truthyOpt : Option String → Bool
  | none => false
  | some t => truthy t

/-- The guard of `handleSend`: `true` when the handler goes on, `false` when it
returns at once. -/
def sendGuard (s : State) : Bool :=
  !(!truthy (trim s.input) && !truthyOpt (stagedText s.filePreview))

/-- The constant `fullMessageContent` of `handleSend`. -/
def fullMessageContent (input : String) (filePreview : Option FilePreview) : String :=
  join "\n"
    ([input,
      match filePreview with
      | some p => if truthy p.extractedText then "\n**File Content:**\n" ++ p.extractedText else ""
      | none => ""].filter truthy)

/-- The user entry appended by `handleSend`. -/
def userMessage (s : State) : Message :=
  { role := "user"
    content := some (fullMessageContent s.input s.filePreview)
    file := s.filePreview.map (fun p => p.content)
    fileName := s.filePreview.map (fun p => p.name) }

/-- The expression `msg.content || ''`. -/
def contentOrEmpty : Option String → String
  | some c => if truthy c then c else ""
  | none => ""

/-- The `messages` field of the request: `filter` on the role, then `map`. -/
def payload (newMessages : List Message) : List PayloadEntry :=
  (newMessages.filter (fun msg => decide (msg.role = "user") || decide (msg.role = "assistant"))).map
    (fun msg => { role := msg.role, content := contentOrEmpty msg.content })

/-- The request built by `handleSend`. -/
def request (newMessages : List Message) : Request :=
  { messages := payload newMessages, model := "llama-3.3-70b-versatile" }

/-- The constant `botMessage`: reading `response.choices[0]` throws when
`choices` is missing; otherwise `?.message?.content || 'No response received.'`. -/
def botMessage (response : Response) : Except Thrown String :=
  match response.choices with
  | none => .error "TypeError"
  | some choices =>
    match (choices.head?.bind (fun c => c.message)).bind (fun m => m.content) with
    | some c => .ok (if truthy c then c else "No response received.")
    | none => .ok "No response received."

/-- The synchronous part of `handleSend` up to the `await`: `none` when the guard
returns, otherwise the state after the four setters and the request. -/
def sendStart (s : State) : Option (State × Request) :=
  if sendGuard s then
    let newMessages := s.messages ++ [userMessage s]
    some ({ s with isLoading := true, messages := newMessages, input := "", file := none,
                   filePreview := none },
          request newMessages)
  else none

/-- The part of `handleSend` after the `await`: the functional update
`setMessages(prev => [...prev, ...])` of the `try` or of the `catch` branch, then
`finally`. -/
def sendSettle (outcome : Except Thrown Response) (s : State) : State × List Event :=
  match outcome.bind botMessage with
  | .ok bot =>
    ({ s with messages := s.messages ++
                [{ role := "assistant", content := some bot, file := none, fileName := none }],
              isLoading := false }, [])
  | .error _ =>
    ({ s with messages := s.messages ++
                [{ role := "assistant", content := some "Something went wrong. Please try again!",
                   file := none, fileName := none }],
              isLoading := false }, [.consoleError "Groq API error:"])

/-- The handler `handleSend`, run to completion. -/
def handleSend (env : Env) (s : State) : State × List Event :=
  match sendStart s with
  | none => (s, [])
  | some (s1, req) =>
    let r := sendSettle (env.create req) s1
    (r.1, Event.completionCreate req :: r.2)

/-! ## Sequences of operations -/

/-- A user action on the page. -/
inductive Op where
  | send (env : Env)
  | fileChange (env : Env) (selectedFile : Option FileObj)
  | clearFile
  | typeInput (value : String)

/-- The state after one action. -/
def step (s : State) : Op → State
  | .send env => (handleSend env s).1
  | .fileChange env f => (handleFileChange env f s).1
  | .clearFile => handleClearFile s
  | .typeInput value => { s with input := value }

/-- The state after a sequence of actions. -/
def run (s : State) (ops : List Op) : State := ops.foldl step s

/-! ## Reference definitions for the payload and the page texts -/

/-- The payload as the specification words it: the transcript restricted to the
roles `user` and `assistant`, in order, each entry reduced to its role and its
content, an absent content becoming the empty string. -/
def payloadSpec (transcript : List Message) : List PayloadEntry :=
  (transcript.filter (fun m => decide (m.role = "user" ∨ m.role = "assistant"))).map
    (fun m => { role := m.role, content := m.content.getD "" })

/-- The text `T_i` of a page: its tokens joined by single spaces. -/
def pageText (items : List TextItem) : String := join " " (items.map (fun item => item.str))

/-- The texts `T_1, ..., T_n` of the first `n` pages, `tokens i` being the items of
page `i`. -/
def pageTexts (tokens : Nat → List TextItem) (n : Nat) : List String :=
  (List.range n).map (fun k => pageText (tokens (k + 1)))

/-- Concatenation of a list of strings with nothing in between. -/
def concatPages : List String → String
  | [] => ""
  | t :: ts => t ++ concatPages ts

/-- The selected file is a PDF or an image and its extractor resolves with `text`. -/
def ExtractionReturns (env : Env) (f : FileObj) (text : String) : Prop :=
  (f.type = "application/pdf" ∧ extractTextFromPDF env f = .ok text) ∨
  (f.type ≠ "application/pdf" ∧ startsWith f.type "image/" = true ∧
    extractTextFromImage env f = .ok text)

/-- The selected file is a PDF or an image and its extractor throws. -/
def ExtractionThrows (env : Env) (f : FileObj) : Prop :=
  (f.type = "application/pdf" ∧ ∃ e, extractTextFromPDF env f = .error e) ∨
  (f.type ≠ "application/pdf" ∧ startsWith f.type "image/" = true ∧
    ∃ e, extractTextFromImage env f = .error e)

/-! ## Sample collaborators and inputs -/

/-- A two-page document: page 1 holds the token `a`, page 2 the token `b`. -/
def twoPages : PdfDoc :=
  { numPages := 2
    getPage := fun i => if i = 1 then .ok [{ str := "a" }] else .ok [{ str := "b" }] }

/-- Collaborators that all succeed. -/
def sampleEnv : Env :=
  { create := fun _ =>
      .ok { choices := some [{ message := some { content := some "Noted." } }] }
    getDocument := fun _ => .ok twoPages
    createWorker := .ok ()
    loadLanguage := fun _ => .ok ()
    initWorker := fun _ => .ok ()
    recognize := fun _ => .ok "scanned text"
    terminate := .ok ()
    createObjectURL := fun f => "blob:" ++ f.name }

/-- Collaborators whose completion call, document loading and recognition reject. -/
def throwingEnv : Env :=
  { sampleEnv with
    create := fun _ => .error "network"
    getDocument := fun _ => .error "InvalidPDFException"
    recognize := fun _ => .error "ocr" }

/-- A PDF upload. -/
def leasePdf : FileObj := { name := "lease.pdf", type := "application/pdf", bytes := [37, 80, 68, 70] }

/-- A second PDF upload. -/
def brokenPdf : FileObj := { name := "broken.pdf", type := "application/pdf", bytes := [0] }

/-- An image upload. -/
def scanPng : FileObj := { name := "scan.png", type := "image/png", bytes := [137, 80, 78, 71] }

/-- A plain-text upload. -/
def notesTxt : FileObj := { name := "notes.txt", type := "text/plain", bytes := [104, 105] }

/-- The initial state with `Hello` typed. -/
def helloState : State := { State.init with input := "Hello" }

/-- The state after `leasePdf` was ingested with `sampleEnv`. -/
def stagedState : State := (handleFileChange sampleEnv (some leasePdf) State.init).1

/-- A staged document with `Hi` typed. -/
def hiWithFileState : State :=
  { State.init with
    input := "Hi"
    filePreview := some
      { type := "application/pdf", content := "blob:lease.pdf", extractedText := "X",
        name := "lease.pdf" } }

/-- A staged document and an empty input. -/
def fileOnlyState : State :=
  { State.init with
    filePreview := some
      { type := "application/pdf", content := "blob:lease.pdf",
        extractedText := "Contract terms...", name := "lease.pdf" } }

/-- A staged image in which no text was detected, and a blank input. -/
def textlessState : State :=
  { State.init with
    input := "  "
    file := some scanPng
    filePreview := some
      { type := "image/png", content := "blob:scan.png", extractedText := "", name := "scan.png" } }

/-! ## Auxiliary facts -/

theorem truthy_eq_false_iff (t : String) : truthy t = false ↔ t = "" := by
  simp [truthy]

theorem truthy_eq_true_iff (t : String) : truthy t = true ↔ t ≠ "" := by
  simp [truthy]

theorem sendStart_of_guard (s : State) (hg : sendGuard s = true) :
    sendStart s =
      some ({ s with isLoading := true, messages := s.messages ++ [userMessage s], input := "",
                     file := none, filePreview := none },
            request (s.messages ++ [userMessage s])) := by
  simp [sendStart, hg]

theorem sendStart_of_not_guard (s : State) (hg : sendGuard s = false) : sendStart s = none := by
  simp [sendStart, hg]

theorem sendSettle_spec (outcome : Except Thrown Response) (s : State) :
    ∃ a tail, sendSettle outcome s =
        ({ s with messages := s.messages ++ [a], isLoading := false }, tail) ∧
      a.role = "assistant" ∧ a.file = none ∧ a.fileName = none ∧
      (∀ r, Event.completionCreate r ∉ tail) ∧
      (∀ e, outcome.bind botMessage = .error e →
        a.content = some "Something went wrong. Please try again!") := by
  unfold sendSettle
  cases h : outcome.bind botMessage with
  | error e =>
    exact ⟨_, _, rfl, rfl, rfl, rfl, by simp, fun _ _ => rfl⟩
  | ok bot =>
    refine ⟨_, _, rfl, rfl, rfl, rfl, by simp, ?_⟩
    intro e he
    cases he

theorem handleSend_of_guard (env : Env) (s : State) (hg : sendGuard s = true) :
    ∃ a tail, handleSend env s =
        ({ s with messages := s.messages ++ [userMessage s, a], input := "", file := none,
                  filePreview := none, isLoading := false },
         Event.completionCreate (request (s.messages ++ [userMessage s])) :: tail) ∧
      a.role = "assistant" ∧ a.file = none ∧ a.fileName = none ∧
      (∀ r, Event.completionCreate r ∉ tail) ∧
      (∀ e, (env.create (request (s.messages ++ [userMessage s]))).bind botMessage = .error e →
        a.content = some "Something went wrong. Please try again!") := by
  obtain ⟨a, tail, hs, hr, hf, hn, ht, he⟩ :=
    sendSettle_spec (env.create (request (s.messages ++ [userMessage s])))
      { s with isLoading := true, messages := s.messages ++ [userMessage s], input := "",
               file := none, filePreview := none }
  refine ⟨a, tail, ?_, hr, hf, hn, ht, he⟩
  simp [handleSend, sendStart_of_guard s hg, hs]

theorem handleSend_of_not_guard (env : Env) (s : State) (hg : sendGuard s = false) :
    handleSend env s = (s, []) := by
  simp [handleSend, sendStart_of_not_guard s hg]

theorem ne_empty_of_trim_ne_empty (t : String) (h : trim t ≠ "") : t ≠ "" := by
  intro ht
  subst ht
  exact h (by decide)

/-! ## Claims about `handleSend` -/

/-- C1: with an input whose trimmed form is empty and nothing staged, `handleSend`
returns the state it was given (transcript, input, pending-file slot and sending
flag unchanged) and performs no external call, so the completion API is not
called. -/
theorem handleSend_blank_is_noop (env : Env) (s : State)
    (hin : trim s.input = "") (hslot : s.filePreview = none) :
    handleSend env s = (s, []) := by
  apply handleSend_of_not_guard
  simp [sendGuard, hin, hslot, truthy, stagedText, truthyOpt]

theorem handleSend_blank_is_noop_witness :
    trim ({ State.init with input := " \t " } : State).input = "" ∧
      ({ State.init with input := " \t " } : State).filePreview = none ∧
      handleSend sampleEnv { State.init with input := " \t " } =
        ({ State.init with input := " \t " }, []) :=
  ⟨by decide, rfl, handleSend_blank_is_noop sampleEnv _ (by decide) rfl⟩

/-- C2: when the send guard passes, the transcript after `handleSend` is the prior
transcript followed by exactly two entries, the user entry and then an assistant
entry, whatever the outcome of the completion call; when the call throws, the
assistant entry is the fixed apology. -/
theorem handleSend_appends_two (env : Env) (s : State) (hg : sendGuard s = true) :
    ∃ a : Message,
      (handleSend env s).1.messages = s.messages ++ [userMessage s, a] ∧
      (handleSend env s).1.messages.length = s.messages.length + 2 ∧
      (userMessage s).role = "user" ∧ a.role = "assistant" ∧
      (∀ e, env.create (request (s.messages ++ [userMessage s])) = .error e →
        a.content = some "Something went wrong. Please try again!") := by
  obtain ⟨a, tail, hs, hr, -, -, -, he⟩ := handleSend_of_guard env s hg
  refine ⟨a, by rw [hs], by rw [hs]; simp, rfl, hr, ?_⟩
  intro e hc
  exact he e (by rw [hc]; rfl)

theorem handleSend_appends_two_witness :
    sendGuard helloState = true ∧
      ∃ a : Message,
        (handleSend throwingEnv helloState).1.messages =
          helloState.messages ++ [userMessage helloState, a] ∧
        (handleSend throwingEnv helloState).1.messages.length = helloState.messages.length + 2 ∧
        (userMessage helloState).role = "user" ∧ a.role = "assistant" ∧
        (∀ e, throwingEnv.create (request (helloState.messages ++ [userMessage helloState])) =
            .error e →
          a.content = some "Something went wrong. Please try again!") :=
  ⟨by decide, handleSend_appends_two throwingEnv helloState (by decide)⟩

theorem contentOrEmpty_eq_getD (c : Option String) : contentOrEmpty c = c.getD "" := by
  cases c with
  | none => rfl
  | some t =>
    by_cases h : t = ""
    · simp [contentOrEmpty, truthy, h]
    · simp [contentOrEmpty, truthy, h]

theorem payload_eq_payloadSpec (transcript : List Message) :
    payload transcript = payloadSpec transcript := by
  unfold payload payloadSpec
  congr 1
  · funext m
    rw [contentOrEmpty_eq_getD]
  · congr 1
    funext m
    simp

theorem append_ne_empty_left (a b : String) (h : a ≠ "") : a ++ b ≠ "" := by
  intro hab
  apply h
  have hl : (a ++ b).length = 0 := by rw [hab]; rfl
  rw [String.length_append] at hl
  have ha : a.length = 0 := by omega
  have hd : a.data = [] := List.length_eq_zero.mp ha
  exact String.ext hd

/-- C5: when the send guard passes, `handleSend` calls the completion API exactly
once, and the payload of that call is the updated transcript (prior transcript
followed by the new user entry) restricted to the roles `user` and `assistant`,
in order, each entry reduced to role and content with an absent content replaced
by the empty string; every payload entry has role `user` or `assistant`, and
with input `Hello` and nothing staged the last payload entry is the user entry
with content `Hello`. -/
theorem handleSend_payload (env : Env) (s : State) (hg : sendGuard s = true) :
    ∃ tail,
      (handleSend env s).2 =
        Event.completionCreate
          { messages := payloadSpec (s.messages ++ [userMessage s])
            model := "llama-3.3-70b-versatile" } :: tail ∧
      (∀ r, Event.completionCreate r ∉ tail) ∧
      (∀ e ∈ payloadSpec (s.messages ++ [userMessage s]),
        e.role = "user" ∨ e.role = "assistant") ∧
      (s.input = "Hello" → s.filePreview = none →
        (payloadSpec (s.messages ++ [userMessage s])).getLast? =
          some { role := "user", content := "Hello" }) := by
  obtain ⟨a, tail, hs, -, -, -, ht, -⟩ := handleSend_of_guard env s hg
  refine ⟨tail, ?_, ht, ?_, ?_⟩
  · rw [hs]
    simp [request, payload_eq_payloadSpec]
  · intro e he
    simp only [payloadSpec, List.mem_map, List.mem_filter] at he
    obtain ⟨m, ⟨-, hm⟩, rfl⟩ := he
    simpa using hm
  · intro hin hslot
    have hu : userMessage s =
        { role := "user", content := some "Hello", file := none, fileName := none } := by
      simp [userMessage, hin, hslot, fullMessageContent, truthy, join]
    rw [hu]
    simp [payloadSpec, List.filter_append]

theorem handleSend_payload_witness :
    sendGuard helloState = true ∧
      ∃ tail,
        (handleSend sampleEnv helloState).2 =
          Event.completionCreate
            { messages := payloadSpec (helloState.messages ++ [userMessage helloState])
              model := "llama-3.3-70b-versatile" } :: tail ∧
        (∀ r, Event.completionCreate r ∉ tail) ∧
        (∀ e ∈ payloadSpec (helloState.messages ++ [userMessage helloState]),
          e.role = "user" ∨ e.role = "assistant") ∧
        (helloState.input = "Hello" → helloState.filePreview = none →
          (payloadSpec (helloState.messages ++ [userMessage helloState])).getLast? =
            some { role := "user", content := "Hello" }) :=
  ⟨by decide, handleSend_payload sampleEnv helloState (by decide)⟩

theorem fullMessageContent_no_text (input : String) (filePreview : Option FilePreview)
    (hin : input ≠ "") (ht : truthyOpt (stagedText filePreview) = false) :
    fullMessageContent input filePreview = input := by
  cases filePreview with
  | none => simp [fullMessageContent, truthy, hin, join]
  | some p =>
    have hp : p.extractedText = "" := by
      simpa [truthyOpt, stagedText, truthy] using ht
    simp [fullMessageContent, truthy, hin, hp, join]

theorem fullMessageContent_text_only (p : FilePreview) (ht : p.extractedText ≠ "") :
    fullMessageContent "" (some p) = "\n**File Content:**\n" ++ p.extractedText := by
  have hm : "\n**File Content:**\n" ++ p.extractedText ≠ "" :=
    append_ne_empty_left _ _ (by decide)
  simp [fullMessageContent, truthy, ht, hm, join]

theorem fullMessageContent_both (input : String) (p : FilePreview)
    (hin : input ≠ "") (ht : p.extractedText ≠ "") :
    fullMessageContent input (some p) =
      input ++ "\n" ++ ("\n**File Content:**\n" ++ p.extractedText) := by
  have hm : "\n**File Content:**\n" ++ p.extractedText ≠ "" :=
    append_ne_empty_left _ _ (by decide)
  simp [fullMessageContent, truthy, hin, ht, hm, join]

theorem input_ne_empty_of_guard (s : State) (hg : sendGuard s = true)
    (ht : truthyOpt (stagedText s.filePreview) = false) : s.input ≠ "" := by
  apply ne_empty_of_trim_ne_empty
  simpa [sendGuard, ht, truthy] using hg

/-- C4 (as stated, refuted): with input `Hi` and staged text `X` the user entry is
`Hi`, an empty line, the marker line and `X`; it is not `Hi` directly followed by
the marker line. -/
theorem fullMessageContent_blank_line_counterexample :
    sendGuard hiWithFileState = true ∧
      (handleSend sampleEnv hiWithFileState).1.messages.map (fun m => m.content) =
        [some "Hi\n\n**File Content:**\nX", some "Noted."] ∧
      (handleSend sampleEnv hiWithFileState).1.messages.map (fun m => m.content) ≠
        [some ("Hi" ++ ("\n**File Content:**\n" ++ "X")), some "Noted."] := by
  decide

/-- C4 (amended): when the send guard passes, the user entry appended by
`handleSend` has as content the non-empty components among the input and the
marker `\n**File Content:**\n` followed by the extracted text, joined by one
newline: the input alone when no text is staged, the marker and the text alone
when the input is the empty string, and otherwise the input, a newline, and the
marker and text, so that an empty line separates the input from the marker
line. -/
theorem handleSend_user_content (env : Env) (s : State) (hg : sendGuard s = true) :
    ∃ u a : Message,
      (handleSend env s).1.messages = s.messages ++ [u, a] ∧ u.role = "user" ∧
      (truthyOpt (stagedText s.filePreview) = false → u.content = some s.input) ∧
      (∀ p, s.filePreview = some p → p.extractedText ≠ "" → s.input = "" →
        u.content = some ("\n**File Content:**\n" ++ p.extractedText)) ∧
      (∀ p, s.filePreview = some p → p.extractedText ≠ "" → s.input ≠ "" →
        u.content = some (s.input ++ "\n" ++ ("\n**File Content:**\n" ++ p.extractedText))) := by
  obtain ⟨a, tail, hs, -, -, -, -, -⟩ := handleSend_of_guard env s hg
  refine ⟨userMessage s, a, by rw [hs], rfl, ?_, ?_, ?_⟩
  · intro ht
    simp only [userMessage]
    rw [fullMessageContent_no_text _ _ (input_ne_empty_of_guard s hg ht) ht]
  · intro p hp ht hin
    simp only [userMessage]
    rw [hp, hin, fullMessageContent_text_only p ht]
  · intro p hp ht hin
    simp only [userMessage]
    rw [hp, fullMessageContent_both _ p hin ht]

theorem handleSend_user_content_witness :
    sendGuard fileOnlyState = true ∧
      ∃ u a : Message,
        (handleSend sampleEnv fileOnlyState).1.messages = fileOnlyState.messages ++ [u, a] ∧
        u.role = "user" ∧
        (truthyOpt (stagedText fileOnlyState.filePreview) = false →
          u.content = some fileOnlyState.input) ∧
        (∀ p, fileOnlyState.filePreview = some p → p.extractedText ≠ "" →
          fileOnlyState.input = "" →
          u.content = some ("\n**File Content:**\n" ++ p.extractedText)) ∧
        (∀ p, fileOnlyState.filePreview = some p → p.extractedText ≠ "" →
          fileOnlyState.input ≠ "" →
          u.content =
            some (fileOnlyState.input ++ "\n" ++ ("\n**File Content:**\n" ++ p.extractedText))) :=
  ⟨by decide, handleSend_user_content sampleEnv fileOnlyState (by decide)⟩

/-- C10: with a staged file whose extracted text is the empty string, `handleSend`
on an input whose trimmed form is empty returns the state it was given and makes
no external call, so the transcript is unchanged and the file stays staged; on an
input whose trimmed form is not empty it appends the user entry carrying the
typed input, the file reference and the file name, and empties the slot. -/
theorem handleSend_textless_file (env : Env) (s : State) (p : FilePreview)
    (hp : s.filePreview = some p) (ht : p.extractedText = "") :
    (trim s.input = "" →
      handleSend env s = (s, []) ∧ (handleSend env s).1.filePreview = some p) ∧
    (trim s.input ≠ "" →
      ∃ a : Message,
        (handleSend env s).1.messages =
          s.messages ++
            [{ role := "user", content := some s.input, file := some p.content,
               fileName := some p.name }, a] ∧
        (handleSend env s).1.filePreview = none) := by
  constructor
  · intro hin
    have h : handleSend env s = (s, []) := by
      apply handleSend_of_not_guard
      simp [sendGuard, hin, hp, ht, truthy, stagedText, truthyOpt]
    exact ⟨h, by rw [h]; exact hp⟩
  · intro hin
    have hg : sendGuard s = true := by
      simp [sendGuard, hin, truthy]
    have hstaged : truthyOpt (stagedText s.filePreview) = false := by
      simp [hp, ht, truthy, stagedText, truthyOpt]
    obtain ⟨a, tail, hs, -, -, -, -, -⟩ := handleSend_of_guard env s hg
    refine ⟨a, ?_, by rw [hs]⟩
    rw [hs]
    simp only [userMessage]
    rw [fullMessageContent_no_text _ _ (ne_empty_of_trim_ne_empty _ hin) hstaged, hp]
    rfl

theorem handleSend_textless_file_witness :
    textlessState.filePreview =
        some { type := "image/png", content := "blob:scan.png", extractedText := "",
               name := "scan.png" } ∧
      trim textlessState.input = "" ∧
      handleSend sampleEnv textlessState = (textlessState, []) ∧
      (handleSend sampleEnv textlessState).1.filePreview =
        some { type := "image/png", content := "blob:scan.png", extractedText := "",
               name := "scan.png" } :=
  ⟨rfl, by decide,
    (handleSend_textless_file sampleEnv textlessState _ rfl rfl).1 (by decide)⟩

/-! ## Claims about text extraction -/

theorem pdfLoop_ok (pdf : PdfDoc) (tokens : Nat → List TextItem) :
    ∀ (fuel i : Nat) (acc : String),
      (∀ k, k < fuel → i + k ≤ pdf.numPages ∧ pdf.getPage (i + k) = .ok (tokens (i + k))) →
      pdfLoop pdf fuel i acc =
        .ok (acc ++ concatPages ((List.range fuel).map (fun k => pageText (tokens (i + k))))) := by
  intro fuel
  induction fuel with
  | zero =>
    intro i acc _
    simp [pdfLoop, concatPages]
  | succ n ih =>
    intro i acc h
    have h0 := h 0 (Nat.succ_pos n)
    simp only [Nat.add_zero] at h0
    have hrest : ∀ k, k < n →
        i + 1 + k ≤ pdf.numPages ∧ pdf.getPage (i + 1 + k) = .ok (tokens (i + 1 + k)) := by
      intro k hk
      have := h (k + 1) (Nat.succ_lt_succ hk)
      have e : i + (k + 1) = i + 1 + k := by omega
      rwa [e] at this
    have hstep : pdfLoop pdf (n + 1) i acc =
        pdfLoop pdf n (i + 1) (acc ++ join " " ((tokens i).map (fun item => item.str))) := by
      simp only [pdfLoop, h0.1, h0.2, if_true]
    rw [hstep, ih (i + 1) _ hrest, List.range_succ_eq_map]
    have e : ∀ k, i + 1 + k = i + (k + 1) := by intro k; omega
    simp [concatPages, pageText, String.append_assoc, Function.comp_def, e]

/-- C3 (defect in the code): the loop joins the tokens of a page with single
spaces but appends each page text to the accumulator with a bare `+=`, so the
last token of a page is glued to the first token of the next. For the two-page
document whose pages hold the tokens `a` and `b`, `extractTextFromPDF` returns
`ab`, where the space-joined page texts `T_1 + " " + T_2` are `a b`. -/
theorem extractTextFromPDF_glues_pages :
    twoPages.numPages = 2 ∧ twoPages.getPage 1 = .ok [{ str := "a" }] ∧
      twoPages.getPage 2 = .ok [{ str := "b" }] ∧
      extractTextFromPDF sampleEnv leasePdf = .ok "ab" ∧
      join " " [pageText [{ str := "a" }], pageText [{ str := "b" }]] = "a b" ∧
      extractTextFromPDF sampleEnv leasePdf ≠
        .ok (join " " [pageText [{ str := "a" }], pageText [{ str := "b" }]]) := by
  refine ⟨rfl, rfl, rfl, rfl, by decide, ?_⟩
  intro h
  have h2 : extractTextFromPDF sampleEnv leasePdf = .ok "ab" := rfl
  rw [h2] at h
  injection h with h
  revert h
  decide

/-- What the loop computes as written: for a document of `N` pages whose page `i`
yields the items `tokens i`, `extractTextFromPDF` returns the page texts in page
order `1..N` run together with nothing between consecutive pages, each page text
being the tokens of that page joined by single spaces. -/
theorem extractTextFromPDF_concat (env : Env) (f : FileObj) (pdf : PdfDoc)
    (tokens : Nat → List TextItem) (hdoc : env.getDocument f = .ok pdf)
    (hpages : ∀ i, 1 ≤ i → i ≤ pdf.numPages → pdf.getPage i = .ok (tokens i)) :
    extractTextFromPDF env f = .ok (concatPages (pageTexts tokens pdf.numPages)) := by
  have h := pdfLoop_ok pdf tokens pdf.numPages 1 ""
    (fun k hk => ⟨by omega, hpages (1 + k) (by omega) (by omega)⟩)
  have e : ∀ k, 1 + k = k + 1 := by intro k; omega
  simp only [extractTextFromPDF, hdoc, h, pageTexts, e, String.empty_append]

theorem extractTextFromPDF_concat_witness :
    sampleEnv.getDocument leasePdf = .ok twoPages ∧
      (∀ i, 1 ≤ i → i ≤ twoPages.numPages →
        twoPages.getPage i = .ok (if i = 1 then [{ str := "a" }] else [{ str := "b" }])) ∧
      extractTextFromPDF sampleEnv leasePdf =
        .ok (concatPages
          (pageTexts (fun i => if i = 1 then [{ str := "a" }] else [{ str := "b" }])
            twoPages.numPages)) :=
  have hp : ∀ i, 1 ≤ i → i ≤ twoPages.numPages →
      twoPages.getPage i = .ok (if i = 1 then [{ str := "a" }] else [{ str := "b" }]) := by
    intro i _ _
    by_cases h : i = 1 <;> simp [twoPages, h]
  ⟨rfl, hp, extractTextFromPDF_concat sampleEnv leasePdf twoPages _ rfl hp⟩

/-! ## Claims about file ingestion -/

theorem handleFileChange_unsupported (env : Env) (f : FileObj) (s : State)
    (hpdf : f.type ≠ "application/pdf") (himg : startsWith f.type "image/" = false) :
    handleFileChange env (some f) s =
      ({ s with error := some "Unsupported file type", isProcessingFile := false }, []) := by
  simp [handleFileChange, hpdf, himg]

theorem handleFileChange_throws (env : Env) (f : FileObj) (s : State)
    (h : ExtractionThrows env f) :
    ∃ events, handleFileChange env (some f) s =
      (failIngestion { s with error := none, isProcessingFile := true }, events) := by
  rcases h with ⟨hpdf, e, he⟩ | ⟨hpdf, himg, e, he⟩
  · exact ⟨[.pdfExtraction f, .consoleError "File processing error:"],
      by simp [handleFileChange, hpdf, he]⟩
  · exact ⟨[.imageExtraction f, .consoleError "File processing error:"],
      by simp [handleFileChange, hpdf, himg, he]⟩

theorem handleFileChange_returns (env : Env) (f : FileObj) (text : String) (s : State)
    (h : ExtractionReturns env f text) :
    ∃ events, handleFileChange env (some f) s =
      (stageFile env f text { s with error := none, isProcessingFile := true }, events) := by
  rcases h with ⟨hpdf, he⟩ | ⟨hpdf, himg, he⟩
  · exact ⟨[.pdfExtraction f], by simp [handleFileChange, hpdf, he]⟩
  · exact ⟨[.imageExtraction f], by simp [handleFileChange, hpdf, himg, he]⟩

theorem handleFileChange_messages (env : Env) (selectedFile : Option FileObj) (s : State) :
    (handleFileChange env selectedFile s).1.messages = s.messages := by
  cases selectedFile with
  | none => rfl
  | some f =>
    unfold handleFileChange
    simp only
    split_ifs
    · cases extractTextFromPDF env f <;> rfl
    · cases extractTextFromImage env f <;> rfl
    · rfl

/-- C6: for a selected file whose type is not `application/pdf` and does not start
with `image/`, `handleFileChange` ends with the error `Unsupported file type`,
the slot (`file`, `filePreview`) and the transcript as before the call, the
ingesting flag false, and no external call made, so no extractor runs. -/
theorem handleFileChange_unsupported_type (env : Env) (f : FileObj) (s : State)
    (hpdf : f.type ≠ "application/pdf") (himg : startsWith f.type "image/" = false) :
    (handleFileChange env (some f) s).1.error = some "Unsupported file type" ∧
      (handleFileChange env (some f) s).1.file = s.file ∧
      (handleFileChange env (some f) s).1.filePreview = s.filePreview ∧
      (handleFileChange env (some f) s).1.messages = s.messages ∧
      (handleFileChange env (some f) s).1.isProcessingFile = false ∧
      (handleFileChange env (some f) s).2 = [] := by
  rw [handleFileChange_unsupported env f s hpdf himg]
  exact ⟨rfl, rfl, rfl, rfl, rfl, rfl⟩

theorem handleFileChange_unsupported_type_witness :
    notesTxt.type ≠ "application/pdf" ∧ startsWith notesTxt.type "image/" = false ∧
      (handleFileChange sampleEnv (some notesTxt) stagedState).1.error =
        some "Unsupported file type" ∧
      (handleFileChange sampleEnv (some notesTxt) stagedState).1.file = stagedState.file ∧
      (handleFileChange sampleEnv (some notesTxt) stagedState).1.filePreview =
        stagedState.filePreview ∧
      (handleFileChange sampleEnv (some notesTxt) stagedState).1.messages =
        stagedState.messages ∧
      (handleFileChange sampleEnv (some notesTxt) stagedState).1.isProcessingFile = false ∧
      (handleFileChange sampleEnv (some notesTxt) stagedState).2 = [] :=
  ⟨by decide, by decide,
    handleFileChange_unsupported_type sampleEnv notesTxt stagedState (by decide) (by decide)⟩

/-- C7 (as stated, refuted): with `lease.pdf` staged, selecting a PDF whose
extraction throws ends with `lease.pdf` still staged; the slot is not empty. -/
theorem handleFileChange_failure_counterexample :
    ExtractionThrows throwingEnv brokenPdf ∧
      stagedState.file = some leasePdf ∧
      (handleFileChange throwingEnv (some brokenPdf) stagedState).1.file = some leasePdf ∧
      (handleFileChange throwingEnv (some brokenPdf) stagedState).1.filePreview =
        some { type := "application/pdf", content := "blob:lease.pdf", extractedText := "ab",
               name := "lease.pdf" } ∧
      ¬ ((handleFileChange throwingEnv (some brokenPdf) stagedState).1.file = none ∧
          (handleFileChange throwingEnv (some brokenPdf) stagedState).1.filePreview = none) :=
  ⟨Or.inl ⟨rfl, "InvalidPDFException", rfl⟩, by decide, by decide, by decide, by decide⟩

/-- C7 (amended): for a PDF or image file whose extraction throws, and for every
prior state, `handleFileChange` ends with the error
`Error processing file. Please try again.`, with the ingesting flag false, and with
the slot (`file`, `filePreview`) as it was before the call: the failing file is
not staged, and a file staged earlier stays staged. -/
theorem handleFileChange_failure (env : Env) (f : FileObj) (s : State)
    (h : ExtractionThrows env f) :
    (handleFileChange env (some f) s).1.error =
        some "Error processing file. Please try again." ∧
      (handleFileChange env (some f) s).1.file = s.file ∧
      (handleFileChange env (some f) s).1.filePreview = s.filePreview ∧
      (handleFileChange env (some f) s).1.isProcessingFile = false := by
  obtain ⟨events, he⟩ := handleFileChange_throws env f s h
  rw [he]
  exact ⟨rfl, rfl, rfl, rfl⟩

theorem handleFileChange_failure_witness :
    ExtractionThrows throwingEnv scanPng ∧
      (handleFileChange throwingEnv (some scanPng) State.init).1.error =
        some "Error processing file. Please try again." ∧
      (handleFileChange throwingEnv (some scanPng) State.init).1.file = State.init.file ∧
      (handleFileChange throwingEnv (some scanPng) State.init).1.filePreview =
        State.init.filePreview ∧
      (handleFileChange throwingEnv (some scanPng) State.init).1.isProcessingFile = false :=
  have h : ExtractionThrows throwingEnv scanPng :=
    Or.inr ⟨by decide, by decide, "ocr", rfl⟩
  ⟨h, handleFileChange_failure throwingEnv scanPng State.init h⟩

/-- C8 (as stated, refuted): after the successful ingestion of `lease.pdf` from the
initial state the slot holds that file; it is not empty. -/
theorem handleFileChange_success_counterexample :
    ExtractionReturns sampleEnv leasePdf "ab" ∧
      (handleFileChange sampleEnv (some leasePdf) State.init).1.file = some leasePdf ∧
      (handleFileChange sampleEnv (some leasePdf) State.init).1.filePreview ≠ none ∧
      (handleFileChange sampleEnv (some leasePdf) State.init).1.error = none :=
  ⟨Or.inl ⟨rfl, rfl⟩, by decide, by decide, by decide⟩

/-- C8 (amended): after an ingestion that succeeds (the extractor of a PDF or image
resolves with `text`) the error state is empty and the slot holds the selected
file with its type, preview reference, extracted text and name; after
`handleClearFile` the slot is empty and the error state is empty. -/
theorem ingestion_success_or_clear (env : Env) (f : FileObj) (text : String) (s s2 : State)
    (h : ExtractionReturns env f text) :
    ((handleFileChange env (some f) s).1.file = some f ∧
      (handleFileChange env (some f) s).1.filePreview =
        some { type := f.type, content := env.createObjectURL f, extractedText := text,
               name := f.name } ∧
      (handleFileChange env (some f) s).1.error = none) ∧
    ((handleClearFile s2).file = none ∧ (handleClearFile s2).filePreview = none ∧
      (handleClearFile s2).error = none) := by
  obtain ⟨events, he⟩ := handleFileChange_returns env f text s h
  rw [he]
  exact ⟨⟨rfl, rfl, rfl⟩, rfl, rfl, rfl⟩

theorem ingestion_success_or_clear_witness :
    ExtractionReturns sampleEnv scanPng "scanned text" ∧
      ((handleFileChange sampleEnv (some scanPng) stagedState).1.file = some scanPng ∧
        (handleFileChange sampleEnv (some scanPng) stagedState).1.filePreview =
          some { type := scanPng.type, content := sampleEnv.createObjectURL scanPng,
                 extractedText := "scanned text", name := scanPng.name } ∧
        (handleFileChange sampleEnv (some scanPng) stagedState).1.error = none) ∧
      ((handleClearFile stagedState).file = none ∧
        (handleClearFile stagedState).filePreview = none ∧
        (handleClearFile stagedState).error = none) :=
  have h : ExtractionReturns sampleEnv scanPng "scanned text" :=
    Or.inr ⟨by decide, by decide, rfl⟩
  ⟨h, ingestion_success_or_clear sampleEnv scanPng "scanned text" stagedState stagedState h⟩

/-! ## The transcript is append-only -/

theorem handleSend_messages_extend (env : Env) (s : State) :
    ∃ t, (handleSend env s).1.messages = s.messages ++ t := by
  cases hg : sendGuard s with
  | false =>
    rw [handleSend_of_not_guard env s hg]
    exact ⟨[], by simp⟩
  | true =>
    obtain ⟨a, tail, hs, -⟩ := handleSend_of_guard env s hg
    rw [hs]
    exact ⟨_, rfl⟩

theorem step_messages_extend (s : State) (op : Op) :
    ∃ t, (step s op).messages = s.messages ++ t := by
  cases op with
  | send env => exact handleSend_messages_extend env s
  | fileChange env f => exact ⟨[], by simp [step, handleFileChange_messages]⟩
  | clearFile => exact ⟨[], by simp [step, handleClearFile]⟩
  | typeInput value => exact ⟨[], by simp [step]⟩

theorem run_messages_extend (ops : List Op) :
    ∀ s : State, ∃ t, (run s ops).messages = s.messages ++ t := by
  induction ops with
  | nil => intro s; exact ⟨[], by simp [run]⟩
  | cons op ops ih =>
    intro s
    obtain ⟨t1, h1⟩ := step_messages_extend s op
    obtain ⟨t2, h2⟩ := ih (step s op)
    refine ⟨t1 ++ t2, ?_⟩
    have hr : run s (op :: ops) = run (step s op) ops := rfl
    rw [hr, h2, h1, List.append_assoc]

/-- C9: for every state and every finite sequence of operations (`handleSend` with
any collaborators, hence any outcome of the completion call, `handleFileChange`,
`handleClearFile`, and typing into the input), the transcript before the sequence
is an initial segment of the transcript after it: the length does not decrease
and the entries present before keep their positions and all their fields. -/
theorem run_transcript_append_only (s : State) (ops : List Op) :
    (∃ t, (run s ops).messages = s.messages ++ t) ∧
      s.messages.length ≤ (run s ops).messages.length ∧
      (run s ops).messages.take s.messages.length = s.messages := by
  obtain ⟨t, ht⟩ := run_messages_extend ops s
  refine ⟨⟨t, ht⟩, ?_, ?_⟩
  · rw [ht]; simp
  · rw [ht]; simp

end Chatbot
